import Mathlib

/-!
Shallow embedding of the compliance scanning and violation-scoring engine
(`src/database/scanner.py` and `src/detection/violation_engine.py`).

Python dictionaries with optional keys are modelled as structures with
`Option`-typed fields (`none` = key absent).  Python string truthiness
(`if s:`) is `pyTruthyStr`.  The database backend (`connector.execute_query`)
is abstracted: checkers receive the relevant query results as parameters,
and exceptions raised by a checker are modelled with `Except`.
Real-valued arithmetic (`math.log10`, `round`) is modelled over `ℝ`;
`round(x, 2)` becomes `round2`.
-/

namespace DataPolicy

/-- Python truthiness for an optional string: `None` and `""` are falsy. -/
def pyTruthyStr : Option String → Bool
  | none => false
  | some s => !(s == "")

/-- Characters of a string, lower-cased (model of Python `s.lower()`). -/
def lowerChars (s : String) : List Char := s.toList.map Char.toLower

/-- Does the second list start with the first (model of a prefix test)? -/
def startsWithChars : List Char → List Char → Bool
  | [], _ => true
  | _ :: _, [] => false
  | c :: cs, d :: ds => c == d && startsWithChars cs ds

/-- Does the second list contain the first as a contiguous run
(model of Python `needle in hay`)? -/
def containsChars (needle : List Char) : List Char → Bool
  | [] => needle.isEmpty
  | d :: ds => startsWithChars needle (d :: ds) || containsChars needle ds

/-- Model of Python `pat in col.lower()` for a lowercase pattern `pat`. -/
def hasSub (col pat : String) : Bool :=
  containsChars pat.toList (lowerChars col)

/-- Model of Python `value.isdigit()`: nonempty and all characters digits. -/
def isDigitStr (v : String) : Bool :=
  !v.toList.isEmpty && v.toList.all Char.isDigit

/-- The characters after the first `'.'` (model of `entity.split('.', 1)[1]`). -/
def afterFirstDot : List Char → List Char
  | [] => []
  | c :: cs => if c == '.' then cs else afterFirstDot cs

/-- Column part of a qualified `table.column` entity hint. -/
def qualifiedPart (e : String) : String :=
  String.mk (afterFirstDot e.toList)

/-- A compliance rule (`rules` entries).  `none` fields model absent keys. -/
structure Rule where
  id : Option String
  type : Option String
  severity : Option String
  text : Option String
  entities : List String
  sqlCondition : Option String
  deriving DecidableEq, Repr

/-- The empty rule dictionary `{}` used when a rule id has no match. -/
def emptyRule : Rule :=
  { id := none, type := none, severity := none, text := none,
    entities := [], sqlCondition := none }

/-- A potential-violation hit as produced by the scanner checkers and
consumed by `ViolationEngine.detect`.  `none` fields model absent keys. -/
structure PV where
  type : Option String
  table : Option String
  column : Option String
  columns : Option (List String)
  rule_id : Option String
  rule_text : Option String
  violation_count : Option Nat
  details : Option String
  requires_review : Bool
  error : Option String
  deriving DecidableEq, Repr

/-- The potential violation with every key absent (all-default reads). -/
def emptyPV : PV :=
  { type := none, table := none, column := none, columns := none,
    rule_id := none, rule_text := none, violation_count := none,
    details := none, requires_review := false, error := none }

/-! ### Column Matcher (`DatabaseScanner._find_applicable_columns`) -/

/-- Contribution of one entity hint to the applicable-columns list
(the first loop of `_find_applicable_columns`). -/
def entityHit (columns : List String) (e : String) : List String :=
  if e.toList.contains '.' then
    if qualifiedPart e ∈ columns then [qualifiedPart e] else []
  else if e ∈ columns then [e] else []

/-- The entity-hint phase of `_find_applicable_columns`. -/
def entityColumns (entities : List String) (columns : List String) : List String :=
  entities.foldl (fun acc e => acc ++ entityHit columns e) []

/-- The `sensitive_patterns` table of `_find_applicable_columns`. -/
def sensitivePatterns (t : String) : List String :=
  if t = "data_encryption" then
    ["password", "ssn", "credit_card", "account_number", "secret", "token", "key"]
  else if t = "data_masking" then
    ["email", "phone", "ssn", "credit_card", "account", "address"]
  else if t = "consent" then ["email", "marketing", "consent", "opted"]
  else if t = "age_restriction" then
    ["birthdate", "birth_date", "dob", "date_of_birth", "age"]
  else if t = "geographic_restriction" then
    ["country", "region", "location", "address", "city", "state"]
  else []

/-- Does some sensitive pattern for rule type `t` occur in `col.lower()`? -/
def matchesPattern (t : String) (col : String) : Bool :=
  (sensitivePatterns t).any (fun pat => hasSub col pat)

/-- The keyword-augmentation phase of `_find_applicable_columns`:
a column is appended when a pattern matches and it is not yet present. -/
def addKeywordColumns (t : String) (columns : List String) (acc0 : List String) :
    List String :=
  columns.foldl
    (fun acc col =>
      if matchesPattern t col = true ∧ col ∉ acc then acc ++ [col] else acc)
    acc0

/-- Embedding of `DatabaseScanner._find_applicable_columns`. -/
def findApplicableColumns (rule : Rule) (columns : List String) : List String :=
  addKeywordColumns (rule.type.getD "") columns (entityColumns rule.entities columns)

/-! ### Severity resolution (`ViolationEngine._determine_severity`) -/

/-- The type-based fallback cascade of `_determine_severity`. -/
def severityFromType (pv : PV) : String :=
  let t := pv.type.getD ""
  if t ∈ ["data_encryption", "age_restriction"] then
    if pv.violation_count.getD 1 > 100 then "critical" else "high"
  else if t ∈ ["data_retention", "data_access", "geographic_restriction"] then "high"
  else if t ∈ ["consent", "data_masking", "notification"] then "medium"
  else if t = "audit_logging" then "low"
  else "medium"

/-- Embedding of `ViolationEngine._determine_severity`: a truthy rule-declared severity
wins, otherwise fall back on the hit type. -/
def determineSeverity (pv : PV) (rule : Rule) : String :=
  if pyTruthyStr rule.severity then rule.severity.getD "" else severityFromType pv

/-! ### Risk scoring (`ViolationEngine._calculate_risk_score`) -/

/-- Lookup `ViolationEngine.SEVERITY_WEIGHTS.get(s, 50)`. -/
noncomputable def severityWeight (s : String) : ℝ :=
  if s = "critical" then 100
  else if s = "high" then 75
  else if s = "medium" then 50
  else if s = "low" then 25
  else 50

/-- Lookup `ViolationEngine.RISK_MULTIPLIERS.get(t, 1.0)` for a string key. -/
noncomputable def riskMultiplier (t : String) : ℝ :=
  if t = "data_encryption" then 1.5
  else if t = "data_retention" then 1.3
  else if t = "data_access" then 1.4
  else if t = "consent" then 1.2
  else if t = "age_restriction" then 1.5
  else if t = "geographic_restriction" then 1.3
  else if t = "audit_logging" then 1.0
  else if t = "data_masking" then 1.1
  else if t = "notification" then 1.2
  else if t = "other" then 1.0
  else 1.0

/-- The multiplier lookup on the violation's `rule_type` field, which is the
hit's possibly-absent `type` (absent key `None` also defaults to `1.0`). -/
noncomputable def riskMultiplierOpt : Option String → ℝ
  | none => 1.0
  | some t => riskMultiplier t

/-- The logarithmic count factor `1 + log10(max(count, 1)) * 0.1`. -/
noncomputable def countFactor (n : ℕ) : ℝ :=
  1 + Real.logb 10 ((max n 1 : ℕ) : ℝ) * 0.1

/-- Python `round(x, 2)`: round to two decimal places. -/
noncomputable def round2 (x : ℝ) : ℝ :=
  ((round (100 * x) : ℤ) : ℝ) / 100

/-- Embedding of `ViolationEngine._calculate_risk_score`: the violation dictionary always
carries the just-resolved `severity`, the hit's `rule_type` and the defaulted
`violation_count`, so the function is determined by those three values. -/
noncomputable def calcRiskScore (severity : String) (ruleType : Option String)
    (count : ℕ) : ℝ :=
  round2 (min (severityWeight severity * riskMultiplierOpt ruleType * countFactor count) 100)

/-! ### Categorisation and framework tagging (`ViolationEngine`) -/

/-- Embedding of `ViolationEngine._categorize_violation`. -/
def categorizeViolation (ruleType : Option String) : String :=
  let t := ruleType.getD ""
  if t = "data_retention" then "Data Lifecycle"
  else if t = "data_access" then "Access Control"
  else if t = "data_encryption" then "Data Protection"
  else if t = "data_masking" then "Data Protection"
  else if t = "consent" then "Privacy Rights"
  else if t = "age_restriction" then "Privacy Rights"
  else if t = "geographic_restriction" then "Data Sovereignty"
  else if t = "audit_logging" then "Audit & Compliance"
  else if t = "notification" then "Incident Response"
  else "General Compliance"

/-- Embedding of `ViolationEngine._map_to_frameworks`. -/
def mapToFrameworks (ruleType : Option String) : List String :=
  let isIn := fun (l : List String) => match ruleType with
    | none => false
    | some t => decide (t ∈ l)
  (if isIn ["consent", "data_retention", "geographic_restriction", "data_access",
      "notification"] then ["GDPR"] else []) ++
  (if isIn ["data_encryption", "data_access", "audit_logging", "data_retention"]
    then ["HIPAA"] else []) ++
  (if isIn ["consent", "data_access", "data_retention"] then ["CCPA"] else []) ++
  (if isIn ["data_encryption", "data_masking", "data_access", "audit_logging"]
    then ["PCI-DSS"] else []) ++
  (if isIn ["audit_logging", "data_access"] then ["SOX"] else []) ++
  (if ruleType = some "age_restriction" then ["COPPA"] else [])

/-! ### `ViolationEngine.detect` -/

/-- A scored violation record.  The fresh `uuid4` id and the `detected_at`
timestamp are nondeterministic environment values not represented here; no
claim concerns them. -/
structure Violation where
  scan_id : Option String
  rule_id : Option String
  rule_type : Option String
  rule_text : Option String
  table : Option String
  column : Option String
  columns : Option (List String)
  violation_count : ℕ
  details : Option String
  status : String
  requires_review : Bool
  severity : String
  risk_score : ℝ
  category : String
  frameworks : List String

/-- Python `a or b` on optional strings (falsy left operand falls through). -/
def pyOrStr (a b : Option String) : Option String :=
  if pyTruthyStr a then a else b

/-- Model of the rules-map dictionary comprehension (keyed by rule id,
skipping rules without one) followed by
`rules_map.get(rule_id, {})`: later rules overwrite earlier ones with the
same id, so the lookup returns the last rule carrying the wanted id. -/
def lookupRule (rules : List Rule) (rid : Option String) : Rule :=
  match rid with
  | none => emptyRule
  | some i => ((rules.filter (fun r => r.id == some i)).getLast?).getD emptyRule

/-- The violation record built for one non-error hit inside `detect`. -/
noncomputable def mkViolation (scanId : Option String) (rules : List Rule)
    (pv : PV) : Violation :=
  let rule := lookupRule rules pv.rule_id
  let sev := determineSeverity pv rule
  { scan_id := scanId,
    rule_id := pv.rule_id,
    rule_type := pv.type,
    rule_text := pyOrStr pv.rule_text rule.text,
    table := pv.table,
    column := pv.column,
    columns := pv.columns,
    violation_count := pv.violation_count.getD 1,
    details := pv.details,
    status := "open",
    requires_review := pv.requires_review,
    severity := sev,
    risk_score := calcRiskScore sev pv.type (pv.violation_count.getD 1),
    category := categorizeViolation pv.type,
    frameworks := mapToFrameworks pv.type }

/-- Descending risk-score order used by `violations.sort(..., reverse=True)`. -/
def riskGE (a b : Violation) : Prop := b.risk_score ≤ a.risk_score

noncomputable instance : DecidableRel riskGE :=
  fun a b => inferInstanceAs (Decidable (b.risk_score ≤ a.risk_score))

instance : IsTotal Violation riskGE :=
  ⟨fun a b => (le_total b.risk_score a.risk_score).imp id id⟩

instance : IsTrans Violation riskGE :=
  ⟨fun _ _ _ h1 h2 => le_trans h2 h1⟩

/-- Embedding of `ViolationEngine.detect`: drop `scan_error` hits, build one violation per
remaining hit, then stable-sort descending by risk score (Python's stable
`list.sort` with `reverse=True` is modelled by insertion sort on `riskGE`). -/
noncomputable def detect (scanId : Option String) (pvs : List PV)
    (rules : List Rule) : List Violation :=
  List.insertionSort riskGE
    ((pvs.filter (fun pv => !(pv.type == some "scan_error"))).map
      (mkViolation scanId rules))

/-! ### Scan dispatch (`DatabaseScanner._check_rule_against_table`)

The per-category checkers perform database I/O; for the dispatch-level
claims they are abstracted as an environment mapping the selected checker
to either a hit list or a raised exception (`Except.error`). -/

/-- The checker selected by the `elif` chain of `_check_rule_against_table`. -/
inductive CheckKind where
  | retention | encryption | masking | access | age | geo | audit | sqlCond
  deriving DecidableEq, Repr

/-- Which checker the `elif` chain of `_check_rule_against_table` dispatches
to, if any (`rule_type = rule.get('type', 'other')`). -/
def dispatchKind (rule : Rule) : Option CheckKind :=
  let t := rule.type.getD "other"
  if t = "data_retention" then some .retention
  else if t = "data_encryption" then some .encryption
  else if t = "data_masking" then some .masking
  else if t = "data_access" then some .access
  else if t = "age_restriction" then some .age
  else if t = "geographic_restriction" then some .geo
  else if t = "audit_logging" then some .audit
  else if pyTruthyStr rule.sqlCondition then some .sqlCond
  else none

/-- The diagnostic entry appended when a checker raises. -/
def scanErrorPV (table : String) (ruleId : Option String) (e : String) : PV :=
  { emptyPV with type := some "scan_error", table := some table,
                 rule_id := ruleId, error := some e }

/-- An abstract run of the per-category checkers: given the checker kind and
the (table, rule, columns) arguments, either the produced hits or the raised
exception message. -/
def CheckerRun : Type :=
  CheckKind → String → Rule → List String → Except String (List PV)

/-- Embedding of `DatabaseScanner._check_rule_against_table`: skip when no column matched
and the rule has no truthy `sql_condition`; otherwise dispatch and catch any
exception as a single `scan_error` entry. -/
def checkRuleAgainstTable (run : CheckerRun) (table : String) (rule : Rule)
    (columns : List String) : List PV :=
  let applicable := findApplicableColumns rule columns
  if applicable = [] ∧ pyTruthyStr rule.sqlCondition = false then []
  else
    match dispatchKind rule with
    | none => []
    | some k =>
      match run k table rule columns with
      | Except.ok hits => hits
      | Except.error e => [scanErrorPV table rule.id e]

/-- The rule loop of `DatabaseScanner._scan_table` (hits are `extend`ed in
rule order). -/
def scanTableRules (run : CheckerRun) (table : String) (rules : List Rule)
    (columns : List String) : List PV :=
  rules.foldl (fun acc r => acc ++ checkRuleAgainstTable run table r columns) []

/-! ### Encryption checker (`DatabaseScanner._check_data_encryption`)

The backend is modelled as `db : String → List String`, giving for each
column name the ordered non-null stringified values of that column; the
query `SELECT col ... WHERE col IS NOT NULL LIMIT 10` returns
`(db col).take 10`. -/

/-- The plaintext heuristic applied to one sampled value of column `col`. -/
def isPlaintext (col value : String) : Bool :=
  if hasSub col "ssn" && (value.length == 9) && isDigitStr value then true
  else if hasSub col "credit" && ((value.length == 15) || (value.length == 16))
      && isDigitStr value then true
  else if hasSub col "password" && decide (value.length < 60) then true
  else false

/-- The row loop of `_check_data_encryption` for one column: flag on the
first plaintext-looking value and stop (`break`). -/
def scanColumnRows (col : String) : List String → Bool
  | [] => false
  | v :: rest => if isPlaintext col v then true else scanColumnRows col rest

/-- The hit appended by `_check_data_encryption` for column `col`. -/
def encViolationPV (table : String) (rule : Rule) (col : String) : PV :=
  { emptyPV with
      type := some "data_encryption", table := some table, column := some col,
      rule_id := rule.id, rule_text := rule.text,
      details := some ("Column " ++ col ++
        " appears to contain unencrypted sensitive data") }

/-- Embedding of `DatabaseScanner._check_data_encryption` over the abstract backend. -/
def checkDataEncryption (db : String → List String) (table : String)
    (rule : Rule) (columns : List String) : List PV :=
  columns.foldl
    (fun acc col =>
      if scanColumnRows col ((db col).take 10) then
        acc ++ [encViolationPV table rule col]
      else acc)
    []

/-! ### Spec-side definitions (for refinement claims)

These definitions follow the specification's words; they are compared with
the code-derived definitions above. -/

/-- Spec formula: `base = {critical:100, high:75, medium:50, low:25}`, any
other severity string maps to 50. -/
noncomputable def specSeverityBase (s : String) : ℝ :=
  if s = "critical" then 100
  else if s = "high" then 75
  else if s = "medium" then 50
  else if s = "low" then 25
  else 50

/-- Spec formula: the fixed per-category multiplier table, any other type
maps to 1.0. -/
noncomputable def specTypeMultiplier (t : String) : ℝ :=
  if t = "data_encryption" then 1.5
  else if t = "data_retention" then 1.3
  else if t = "data_access" then 1.4
  else if t = "consent" then 1.2
  else if t = "age_restriction" then 1.5
  else if t = "geographic_restriction" then 1.3
  else if t = "audit_logging" then 1.0
  else if t = "data_masking" then 1.1
  else if t = "notification" then 1.2
  else 1.0

/-- Spec formula:
`min(100, round(base(s) × typeMultiplier(t) × (1 + log10(max(n,1)) × 0.1), 2))`. -/
noncomputable def specRiskScore (s t : String) (n : ℕ) : ℝ :=
  min 100 (round2 (specSeverityBase s * specTypeMultiplier t *
    (1 + Real.logb 10 ((max n 1 : ℕ) : ℝ) * 0.1)))

/-- Spec severity cascade steps (b)-(f), on the hit type and hit count. -/
def specSeverityFromType (t : String) (count : ℕ) : String :=
  if t = "data_encryption" ∨ t = "age_restriction" then
    if count > 100 then "critical" else "high"
  else if t = "data_retention" ∨ t = "data_access" ∨ t = "geographic_restriction"
    then "high"
  else if t = "consent" ∨ t = "data_masking" ∨ t = "notification" then "medium"
  else if t = "audit_logging" then "low"
  else "medium"

/-- Spec severity cascade with step (a) amended to "declared, non-empty":
a present non-empty declared severity wins verbatim, otherwise fall back on
the hit type and count. -/
def specResolveSeverity (declared : Option String) (t : String) (count : ℕ) :
    String :=
  match declared with
  | some s => if s = "" then specSeverityFromType t count else s
  | none => specSeverityFromType t count

/-! ### Concrete fixtures used by witnesses and counterexamples -/

/-- An encryption rule with one entity hint. -/
def encRuleEx : Rule :=
  { id := some "r1", type := some "data_encryption", severity := none,
    text := none, entities := ["ssn"], sqlCondition := none }

/-- A rule with unknown type, no entities and no raw predicate. -/
def noColsRuleEx : Rule :=
  { id := some "r2", type := none, severity := none, text := none,
    entities := [], sqlCondition := none }

/-- A rule whose declared severity is present but empty. -/
def emptySeverityRuleEx : Rule := { emptyRule with severity := some "" }

/-- An audit-logging hit with no other keys. -/
def auditPVEx : PV := { emptyPV with type := some "audit_logging" }

/-- A rule with two entity hints naming the same column. -/
def dupEntitiesRuleEx : Rule := { emptyRule with entities := ["ssn", "ssn"] }

/-- An encryption-category hit with count 150. -/
def encPV150 : PV :=
  { emptyPV with type := some "data_encryption", violation_count := some 150 }

/-- An encryption-category hit with count 10. -/
def encPV10 : PV :=
  { emptyPV with type := some "data_encryption", violation_count := some 10 }

/-- A checker environment in which every dispatched checker raises. -/
def failingRun : CheckerRun := fun _ _ _ _ => Except.error "boom"

/-! ### Arithmetic facts about the risk-score formula -/

lemma severityWeight_ge_25 (s : String) : (25 : ℝ) ≤ severityWeight s := by
  unfold severityWeight; split_ifs <;> norm_num

lemma severityWeight_le_100 (s : String) : severityWeight s ≤ 100 := by
  unfold severityWeight; split_ifs <;> norm_num

lemma riskMultiplier_ge_one (t : String) : (1 : ℝ) ≤ riskMultiplier t := by
  unfold riskMultiplier; split_ifs <;> norm_num

lemma riskMultiplierOpt_ge_one (t : Option String) :
    (1 : ℝ) ≤ riskMultiplierOpt t := by
  cases t with
  | none => show (1 : ℝ) ≤ 1.0; norm_num
  | some t => exact riskMultiplier_ge_one t

lemma countFactor_ge_one (n : ℕ) : (1 : ℝ) ≤ countFactor n := by
  unfold countFactor
  have h1 : (1 : ℝ) ≤ ((max n 1 : ℕ) : ℝ) := by
    exact_mod_cast le_max_right n 1
  have h2 : 0 ≤ Real.logb 10 ((max n 1 : ℕ) : ℝ) :=
    Real.logb_nonneg (by norm_num) h1
  nlinarith

lemma countFactor_mono {n1 n2 : ℕ} (h : n1 ≤ n2) :
    countFactor n1 ≤ countFactor n2 := by
  unfold countFactor
  have hx : (0 : ℝ) < ((max n1 1 : ℕ) : ℝ) := by
    have : 1 ≤ max n1 1 := le_max_right n1 1
    exact_mod_cast lt_of_lt_of_le Nat.zero_lt_one this
  have hxy : ((max n1 1 : ℕ) : ℝ) ≤ ((max n2 1 : ℕ) : ℝ) := by
    exact_mod_cast max_le_max h (le_refl 1)
  have := Real.logb_le_logb_of_le (b := 10) (by norm_num) hx hxy
  nlinarith

lemma round2_mono {x y : ℝ} (h : x ≤ y) : round2 x ≤ round2 y := by
  unfold round2
  have h1 : round (100 * x) ≤ round (100 * y) := by
    rw [round_eq, round_eq]
    exact Int.floor_mono (by linarith)
  have h2 : ((round (100 * x) : ℤ) : ℝ) ≤ ((round (100 * y) : ℤ) : ℝ) := by
    exact_mod_cast h1
  linarith

lemma round2_natCast (k : ℕ) : round2 ((k : ℕ) : ℝ) = k := by
  unfold round2
  rw [show (100 : ℝ) * ((k : ℕ) : ℝ) = ((100 * k : ℕ) : ℝ) by push_cast; ring,
    round_natCast]
  push_cast
  ring

lemma round2_100 : round2 (100 : ℝ) = 100 := by
  have := round2_natCast 100
  norm_num at this
  exact this

lemma round2_25 : round2 (25 : ℝ) = 25 := by
  have := round2_natCast 25
  norm_num at this
  exact this

lemma raw_score_ge_25 (s : String) (t : Option String) (n : ℕ) :
    (25 : ℝ) ≤ severityWeight s * riskMultiplierOpt t * countFactor n := by
  have h1 := severityWeight_ge_25 s
  have h2 := riskMultiplierOpt_ge_one t
  have h3 := countFactor_ge_one n
  have h4 : (25 : ℝ) ≤ severityWeight s * riskMultiplierOpt t := by nlinarith
  have h5 : severityWeight s * riskMultiplierOpt t * 1 ≤
      severityWeight s * riskMultiplierOpt t * countFactor n := by
    apply mul_le_mul_of_nonneg_left h3
    nlinarith
  nlinarith

lemma calcRiskScore_le_100 (s : String) (t : Option String) (n : ℕ) :
    calcRiskScore s t n ≤ 100 := by
  unfold calcRiskScore
  calc round2 (min (severityWeight s * riskMultiplierOpt t * countFactor n) 100)
      ≤ round2 100 := round2_mono (min_le_right _ _)
    _ = 100 := round2_100

lemma calcRiskScore_ge_25 (s : String) (t : Option String) (n : ℕ) :
    (25 : ℝ) ≤ calcRiskScore s t n := by
  unfold calcRiskScore
  have h : (25 : ℝ) ≤ min (severityWeight s * riskMultiplierOpt t * countFactor n) 100 :=
    le_min (raw_score_ge_25 s t n) (by norm_num)
  calc (25 : ℝ) = round2 25 := round2_25.symm
    _ ≤ round2 (min (severityWeight s * riskMultiplierOpt t * countFactor n) 100) :=
        round2_mono h

/-- C1: for every severity string `s`, rule type string `t` and hit count
`n`, the risk score computed by `_calculate_risk_score`
(`round(min(base × mult × countFactor, 100), 2)`) equals the spec formula
`min(100, round(base(s) × typeMultiplier(t) × (1 + log10(max(n,1)) × 0.1), 2))`
with the spec's base and multiplier tables (unknown severity → 50, unknown
type → 1.0). -/
theorem riskScore_matches_spec_formula (s : String) (t : String) (n : ℕ) :
    calcRiskScore s (some t) n = specRiskScore s t n := by
  have hbase : specSeverityBase s = severityWeight s := by
    unfold specSeverityBase severityWeight; rfl
  have hmult : specTypeMultiplier t = riskMultiplierOpt (some t) := by
    show specTypeMultiplier t = riskMultiplier t
    unfold specTypeMultiplier riskMultiplier
    rw [ite_self]
  have hcf : (1 + Real.logb 10 ((max n 1 : ℕ) : ℝ) * 0.1) = countFactor n := by
    unfold countFactor; ring
  unfold calcRiskScore specRiskScore
  rw [hbase, hmult, hcf]
  set raw := severityWeight s * riskMultiplierOpt (some t) * countFactor n with hraw
  by_cases h : raw ≤ 100
  · rw [min_eq_left h]
    have h2 : round2 raw ≤ 100 := by
      calc round2 raw ≤ round2 100 := round2_mono h
        _ = 100 := round2_100
    rw [min_eq_right h2]
  · push_neg at h
    rw [min_eq_right (le_of_lt h), round2_100]
    have h2 : (100 : ℝ) ≤ round2 raw := by
      calc (100 : ℝ) = round2 100 := round2_100.symm
        _ ≤ round2 raw := round2_mono (le_of_lt h)
    rw [min_eq_left h2]

/-! ### List lemmas for the loop-shaped definitions -/

lemma foldl_append_eq_flatMap {α β : Type} (f : α → List β) :
    ∀ (l : List α) (acc : List β),
      l.foldl (fun a e => a ++ f e) acc = acc ++ l.flatMap f := by
  intro l
  induction l with
  | nil => intro acc; simp
  | cons e l ih =>
    intro acc
    simp only [List.foldl_cons, List.flatMap_cons, ih, List.append_assoc]

lemma entityColumns_eq_flatMap (entities columns : List String) :
    entityColumns entities columns = entities.flatMap (entityHit columns) := by
  unfold entityColumns
  rw [foldl_append_eq_flatMap]
  simp

/-- The keyword-augmentation loop appends a duplicate-free batch of fresh
matching columns, in column order. -/
lemma addKeywordColumns_spec (t : String) :
    ∀ (columns acc : List String), ∃ kw : List String,
      addKeywordColumns t columns acc = acc ++ kw ∧ kw.Nodup ∧
      kw.Sublist columns ∧
      ∀ c ∈ kw, matchesPattern t c = true ∧ c ∉ acc := by
  intro columns
  induction columns with
  | nil =>
    intro acc
    exact ⟨[], by simp [addKeywordColumns], List.nodup_nil, List.nil_sublist _,
      by simp⟩
  | cons col cols ih =>
    intro acc
    unfold addKeywordColumns
    rw [List.foldl_cons]
    by_cases h : matchesPattern t col = true ∧ col ∉ acc
    · rw [if_pos h]
      obtain ⟨kw, heq, hnd, hsub, hall⟩ := ih (acc ++ [col])
      refine ⟨col :: kw, ?_, ?_, ?_, ?_⟩
      · unfold addKeywordColumns at heq
        rw [heq, List.append_assoc]
        rfl
      · refine List.nodup_cons.mpr ⟨fun hc => ?_, hnd⟩
        have := (hall col hc).2
        simp at this
      · exact List.cons_sublist_cons.mpr hsub
      · intro c hc
        rcases List.mem_cons.mp hc with hc | hc
        · subst hc; exact ⟨h.1, h.2⟩
        · refine ⟨(hall c hc).1, fun hmem => (hall c hc).2 ?_⟩
          simp [hmem]
    · rw [if_neg h]
      obtain ⟨kw, heq, hnd, hsub, hall⟩ := ih acc
      exact ⟨kw, heq, hnd, hsub.trans (List.sublist_cons_self col cols), hall⟩

lemma length_filter_not_add_length_filter {α : Type} (q : α → Bool) :
    ∀ l : List α,
      (l.filter (fun x => !(q x))).length + (l.filter q).length = l.length := by
  intro l
  induction l with
  | nil => simp
  | cons x l ih =>
    cases h : q x with
    | true => simp [List.filter_cons, h]; omega
    | false => simp [List.filter_cons, h]; omega

/-! ### Stability of the insertion sort used by `detect` -/

lemma filter_orderedInsert_pos {α : Type} (r : α → α → Prop) [DecidableRel r]
    (p : α → Bool) (a : α) (hpa : p a = true)
    (hall : ∀ b, p b = true → r a b) :
    ∀ l : List α, (List.orderedInsert r a l).filter p = a :: l.filter p := by
  intro l
  induction l with
  | nil => simp [List.orderedInsert, hpa]
  | cons b l ih =>
    by_cases hr : r a b
    · show (if r a b then a :: b :: l else b :: List.orderedInsert r a l).filter p
          = a :: (b :: l).filter p
      rw [if_pos hr]
      simp [List.filter_cons, hpa]
    · have hpb : p b = false := by
        cases h : p b with
        | false => rfl
        | true => exact absurd (hall b h) hr
      show (if r a b then a :: b :: l else b :: List.orderedInsert r a l).filter p
          = a :: (b :: l).filter p
      rw [if_neg hr]
      simp [List.filter_cons, hpb, ih]

lemma filter_orderedInsert_neg {α : Type} (r : α → α → Prop) [DecidableRel r]
    (p : α → Bool) (a : α) (hpa : p a = false) :
    ∀ l : List α, (List.orderedInsert r a l).filter p = l.filter p := by
  intro l
  induction l with
  | nil => simp [List.orderedInsert, hpa]
  | cons b l ih =>
    by_cases hr : r a b
    · show (if r a b then a :: b :: l else b :: List.orderedInsert r a l).filter p
          = (b :: l).filter p
      rw [if_pos hr]
      simp [List.filter_cons, hpa]
    · show (if r a b then a :: b :: l else b :: List.orderedInsert r a l).filter p
          = (b :: l).filter p
      rw [if_neg hr]
      cases hpb : p b with
      | false => simp [List.filter_cons, hpb, ih]
      | true => simp [List.filter_cons, hpb, ih]

/-- Stability: filtering by a predicate whose satisfying elements are
mutually related commutes with insertion sort. -/
lemma filter_insertionSort {α : Type} (r : α → α → Prop) [DecidableRel r]
    (p : α → Bool) (hequiv : ∀ x y, p x = true → p y = true → r x y) :
    ∀ l : List α, (List.insertionSort r l).filter p = l.filter p := by
  intro l
  induction l with
  | nil => rfl
  | cons a l ih =>
    show (List.orderedInsert r a (List.insertionSort r l)).filter p
        = (a :: l).filter p
    cases hpa : p a with
    | true =>
      rw [filter_orderedInsert_pos r p a hpa (fun b hb => hequiv a b hpa hb), ih]
      simp [List.filter_cons, hpa]
    | false =>
      rw [filter_orderedInsert_neg r p a hpa, ih]
      simp [List.filter_cons, hpa]

/-- C7: for every severity, rule-type field and hit counts `n1 ≤ n2`, both
risk scores lie in `[0, 100]` and the score is monotonically non-decreasing
in the hit count. -/
theorem riskScore_bounds_and_monotone (s : String) (t : Option String)
    (n1 n2 : ℕ) (h : n1 ≤ n2) :
    (0 ≤ calcRiskScore s t n1 ∧ calcRiskScore s t n1 ≤ 100) ∧
    (0 ≤ calcRiskScore s t n2 ∧ calcRiskScore s t n2 ≤ 100) ∧
    calcRiskScore s t n1 ≤ calcRiskScore s t n2 := by
  have hb1 : (0 : ℝ) ≤ calcRiskScore s t n1 :=
    le_trans (by norm_num) (calcRiskScore_ge_25 s t n1)
  have hb2 : (0 : ℝ) ≤ calcRiskScore s t n2 :=
    le_trans (by norm_num) (calcRiskScore_ge_25 s t n2)
  refine ⟨⟨hb1, calcRiskScore_le_100 s t n1⟩, ⟨hb2, calcRiskScore_le_100 s t n2⟩, ?_⟩
  unfold calcRiskScore
  apply round2_mono
  apply min_le_min _ le_rfl
  have hcf := countFactor_mono h
  have hnn : 0 ≤ severityWeight s * riskMultiplierOpt t := by
    nlinarith [severityWeight_ge_25 s, riskMultiplierOpt_ge_one t]
  exact mul_le_mul_of_nonneg_left hcf hnn

/-- Witness for C7 at severity `high`, type `consent`, counts 1 ≤ 10. -/
theorem riskScore_bounds_and_monotone_witness :
    (0 ≤ calcRiskScore "high" (some "consent") 1 ∧
      calcRiskScore "high" (some "consent") 1 ≤ 100) ∧
    (0 ≤ calcRiskScore "high" (some "consent") 10 ∧
      calcRiskScore "high" (some "consent") 10 ≤ 100) ∧
    calcRiskScore "high" (some "consent") 1 ≤ calcRiskScore "high" (some "consent") 10 :=
  riskScore_bounds_and_monotone "high" (some "consent") 1 10 (by norm_num)

/-- C10: for every severity string (known or not), every rule-type field
(including an absent one) and every hit-count field (an absent count is
read as 1), the computed risk score is at least 25 and at most 100: the
effective range is `[25, 100]`. -/
theorem riskScore_effective_range (s : String) (t : Option String)
    (c : Option ℕ) :
    (25 : ℝ) ≤ calcRiskScore s t (c.getD 1) ∧ calcRiskScore s t (c.getD 1) ≤ 100 :=
  ⟨calcRiskScore_ge_25 s t _, calcRiskScore_le_100 s t _⟩

lemma severityFromType_eq_spec (pv : PV) :
    severityFromType pv
      = specSeverityFromType (pv.type.getD "") (pv.violation_count.getD 1) := by
  unfold severityFromType specSeverityFromType
  simp only [List.mem_cons, List.mem_singleton, List.not_mem_nil, or_false]

/-- C2 counterexample: a rule-declared severity that is present but empty is
not returned verbatim — the cascade falls through to the type default. -/
theorem determineSeverity_empty_declared_not_verbatim :
    emptySeverityRuleEx.severity = some "" ∧
    determineSeverity auditPVEx emptySeverityRuleEx = "low" ∧
    determineSeverity auditPVEx emptySeverityRuleEx ≠ "" := by
  refine ⟨rfl, rfl, ?_⟩
  decide

/-- C2 (amended): severity resolution follows the spec cascade with step (a)
amended to "declared and non-empty (truthy)"; the encryption-category
scenarios at counts 150 and 10 resolve to `critical` and `high`. -/
theorem determineSeverity_matches_cascade :
    (∀ (pv : PV) (rule : Rule),
      determineSeverity pv rule
        = specResolveSeverity rule.severity (pv.type.getD "")
            (pv.violation_count.getD 1)) ∧
    determineSeverity encPV150 emptyRule = "critical" ∧
    determineSeverity encPV10 emptyRule = "high" := by
  refine ⟨?_, rfl, rfl⟩
  intro pv rule
  unfold determineSeverity specResolveSeverity
  cases hs : rule.severity with
  | none =>
    show (if pyTruthyStr none then (none : Option String).getD "" else severityFromType pv) = _
    simp only [pyTruthyStr, if_neg Bool.false_ne_true]
    exact severityFromType_eq_spec pv
  | some s =>
    by_cases he : s = ""
    · subst he
      show (if pyTruthyStr (some "") then (some "").getD "" else severityFromType pv) = _
      simp only [pyTruthyStr]
      norm_num
      exact severityFromType_eq_spec pv
    · show (if pyTruthyStr (some s) then (some s).getD "" else severityFromType pv) = _
      have ht : pyTruthyStr (some s) = true := by
        simp [pyTruthyStr, he]
      rw [if_pos ht]
      show (some s).getD ""
          = if s = "" then specSeverityFromType (pv.type.getD "")
              (pv.violation_count.getD 1) else s
      rw [if_neg he]
      rfl

/-- C4 counterexample: two entity hints naming the same column produce a
duplicated entry, so the matcher's output is not always duplicate-free. -/
theorem findApplicableColumns_duplicate_from_entities :
    findApplicableColumns dupEntitiesRuleEx ["ssn"] = ["ssn", "ssn"] ∧
    ¬ (findApplicableColumns dupEntitiesRuleEx ["ssn"]).Nodup := by
  refine ⟨rfl, ?_⟩
  decide

/-- C4 (amended): the matcher returns the entity-hint matches in hint order
(the column part of a qualified hint when present in the columns, an
unqualified hint only when exactly equal to a column; a column named by
several hints appears once per hint), followed by the keyword-augmented
columns in column order, which are duplicate-free and never repeat a column
already listed. -/
theorem findApplicableColumns_structure (rule : Rule) (columns : List String) :
    ∃ kw : List String,
      findApplicableColumns rule columns
        = entityColumns rule.entities columns ++ kw ∧
      kw.Nodup ∧ kw.Sublist columns ∧
      (∀ c ∈ kw, matchesPattern (rule.type.getD "") c = true ∧
        c ∉ entityColumns rule.entities columns) ∧
      entityColumns rule.entities columns
        = rule.entities.flatMap (entityHit columns) := by
  obtain ⟨kw, heq, hnd, hsub, hall⟩ :=
    addKeywordColumns_spec (rule.type.getD "") columns
      (entityColumns rule.entities columns)
  exact ⟨kw, heq, hnd, hsub, hall, entityColumns_eq_flatMap _ _⟩

/-- C3: `detect` turns every non-`scan_error` hit into exactly one violation
and drops every `scan_error` hit, so the violation count plus the
`scan_error` count equals the total hit count. -/
theorem detect_hit_accounting (scanId : Option String) (pvs : List PV)
    (rules : List Rule) :
    (detect scanId pvs rules).Perm
      ((pvs.filter (fun pv => !(pv.type == some "scan_error"))).map
        (mkViolation scanId rules)) ∧
    (detect scanId pvs rules).length
      = (pvs.filter (fun pv => !(pv.type == some "scan_error"))).length ∧
    (detect scanId pvs rules).length
      + (pvs.filter (fun pv => pv.type == some "scan_error")).length
      = pvs.length := by
  have hperm :
      (detect scanId pvs rules).Perm
        ((pvs.filter (fun pv => !(pv.type == some "scan_error"))).map
          (mkViolation scanId rules)) :=
    List.perm_insertionSort riskGE _
  refine ⟨hperm, ?_, ?_⟩
  · rw [hperm.length_eq, List.length_map]
  · rw [hperm.length_eq, List.length_map]
    exact length_filter_not_add_length_filter _ pvs

/-- C8: the violations returned by `detect` are sorted descending by risk
score, and hits with equal risk scores keep their discovery order: filtering
the output at any fixed score gives exactly the pre-sort record list
filtered at that score. -/
theorem detect_sorted_descending_stable (scanId : Option String)
    (pvs : List PV) (rules : List Rule) :
    (detect scanId pvs rules).Sorted riskGE ∧
    ∀ s : ℝ,
      (detect scanId pvs rules).filter (fun v => decide (v.risk_score = s))
        = ((pvs.filter (fun pv => !(pv.type == some "scan_error"))).map
            (mkViolation scanId rules)).filter
              (fun v => decide (v.risk_score = s)) := by
  constructor
  · exact List.sorted_insertionSort riskGE _
  · intro s
    apply filter_insertionSort
    intro x y hx hy
    have hx' : x.risk_score = s := of_decide_eq_true hx
    have hy' : y.risk_score = s := of_decide_eq_true hy
    show y.risk_score ≤ x.risk_score
    rw [hx', hy']

/-- C5: when the matcher finds no applicable column and the rule carries no
truthy raw predicate, `_check_rule_against_table` contributes no hit, for
every checker environment (so no checker is invoked). -/
theorem checkRule_skipped_without_columns_or_condition (run : CheckerRun)
    (table : String) (rule : Rule) (columns : List String)
    (hcols : findApplicableColumns rule columns = [])
    (hsql : pyTruthyStr rule.sqlCondition = false) :
    checkRuleAgainstTable run table rule columns = [] := by
  unfold checkRuleAgainstTable
  rw [if_pos ⟨hcols, hsql⟩]

/-- Witness for C5: a rule with unknown type, no entities and no predicate
is skipped even in an environment where every checker would raise. -/
theorem checkRule_skipped_witness :
    checkRuleAgainstTable failingRun "users" noColsRuleEx ["email"] = [] :=
  checkRule_skipped_without_columns_or_condition failingRun "users" noColsRuleEx
    ["email"] (by decide) (by decide)

/-- C6: when the dispatched checker raises, the exception is caught at the
(table, rule) granularity and recorded as a single `scan_error` entry
carrying the table name and the rule id; the rule loop of `_scan_table`
still processes all the surrounding rules. -/
theorem checker_exception_isolated (run : CheckerRun) (table : String)
    (rule : Rule) (columns : List String) (k : CheckKind) (e : String)
    (pre post : List Rule)
    (hk : dispatchKind rule = some k)
    (he : run k table rule columns = Except.error e)
    (hguard : ¬(findApplicableColumns rule columns = [] ∧
        pyTruthyStr rule.sqlCondition = false)) :
    checkRuleAgainstTable run table rule columns
      = [scanErrorPV table rule.id e] ∧
    scanTableRules run table (pre ++ rule :: post) columns
      = scanTableRules run table pre columns
        ++ scanErrorPV table rule.id e :: scanTableRules run table post columns := by
  have h1 : checkRuleAgainstTable run table rule columns
      = [scanErrorPV table rule.id e] := by
    unfold checkRuleAgainstTable
    rw [if_neg hguard, hk]
    show (match run k table rule columns with
          | Except.ok hits => hits
          | Except.error e => [scanErrorPV table rule.id e])
        = [scanErrorPV table rule.id e]
    rw [he]
  refine ⟨h1, ?_⟩
  have hflat : ∀ rs : List Rule,
      scanTableRules run table rs columns
        = rs.flatMap (fun r => checkRuleAgainstTable run table r columns) := by
    intro rs
    unfold scanTableRules
    rw [foldl_append_eq_flatMap]
    simp
  rw [hflat, hflat, hflat, List.flatMap_append, List.flatMap_cons, h1]
  simp

/-- Witness for C6: an encryption rule whose checker raises `boom` yields
exactly the one diagnostic entry, in isolation and inside the rule loop. -/
theorem checker_exception_isolated_witness :
    checkRuleAgainstTable failingRun "users" encRuleEx ["ssn"]
      = [scanErrorPV "users" encRuleEx.id "boom"] ∧
    scanTableRules failingRun "users" ([] ++ encRuleEx :: []) ["ssn"]
      = scanTableRules failingRun "users" [] ["ssn"]
        ++ scanErrorPV "users" encRuleEx.id "boom"
          :: scanTableRules failingRun "users" [] ["ssn"] :=
  checker_exception_isolated failingRun "users" encRuleEx ["ssn"]
    CheckKind.encryption "boom" [] [] (by decide) rfl (by decide)

lemma isPlaintext_eq_or (col v : String) :
    isPlaintext col v =
      ((hasSub col "ssn" && (v.length == 9) && isDigitStr v) ||
       (hasSub col "credit" && ((v.length == 15) || (v.length == 16))
         && isDigitStr v) ||
       (hasSub col "password" && decide (v.length < 60))) := by
  unfold isPlaintext
  cases h1 : (hasSub col "ssn" && (v.length == 9) && isDigitStr v) <;>
    cases h2 : (hasSub col "credit" && ((v.length == 15) || (v.length == 16))
      && isDigitStr v) <;>
    cases h3 : (hasSub col "password" && decide (v.length < 60)) <;>
    simp [h1, h2, h3]

lemma scanColumnRows_eq_any (col : String) :
    ∀ vs : List String, scanColumnRows col vs = vs.any (isPlaintext col) := by
  intro vs
  induction vs with
  | nil => rfl
  | cons v rest ih =>
    show (if isPlaintext col v then true else scanColumnRows col rest) = _
    cases h : isPlaintext col v <;> simp [List.any_cons, h, ih]

/-- C9: for each matched column the encryption checker inspects at most the
10 sampled non-null values, classifies a value as likely-plaintext exactly by
the three paired name+shape tests, emits at most one hit per column visit
(on the first matching value), and a `ssn` column whose first sampled value
is a 9-digit numeric string is flagged exactly once independently of the
remaining sampled rows. -/
theorem encryption_checker_first_match (db : String → List String)
    (table : String) (rule : Rule) (columns : List String) :
    checkDataEncryption db table rule columns
      = columns.flatMap (fun col =>
          if ((db col).take 10).any (fun v =>
              (hasSub col "ssn" && (v.length == 9) && isDigitStr v) ||
              (hasSub col "credit" && ((v.length == 15) || (v.length == 16))
                && isDigitStr v) ||
              (hasSub col "password" && decide (v.length < 60))) = true
          then [encViolationPV table rule col] else []) ∧
    (∀ (col v : String) (rest : List String),
      scanColumnRows col (v :: rest)
        = (isPlaintext col v || scanColumnRows col rest)) ∧
    (∀ rest : List String,
      checkDataEncryption (fun _ => "123456789" :: rest) table rule ["ssn"]
        = [encViolationPV table rule "ssn"]) := by
  refine ⟨?_, ?_, ?_⟩
  · have hstep : (fun (acc : List PV) (col : String) =>
        if scanColumnRows col ((db col).take 10) then
          acc ++ [encViolationPV table rule col]
        else acc)
        = (fun acc col => acc ++
            (if scanColumnRows col ((db col).take 10) then
              [encViolationPV table rule col] else [])) := by
      funext acc col
      cases h : scanColumnRows col ((db col).take 10) <;> simp [h]
    unfold checkDataEncryption
    rw [hstep, foldl_append_eq_flatMap]
    rw [List.nil_append]
    apply congrArg columns.flatMap
    funext col
    have hf : isPlaintext col = (fun v =>
        ((hasSub col "ssn" && (v.length == 9) && isDigitStr v) ||
         (hasSub col "credit" && ((v.length == 15) || (v.length == 16))
           && isDigitStr v) ||
         (hasSub col "password" && decide (v.length < 60)))) :=
      funext (fun v => isPlaintext_eq_or col v)
    rw [scanColumnRows_eq_any, hf]
  · intro col v rest
    cases h : isPlaintext col v <;> simp [scanColumnRows, h]
  · intro rest
    unfold checkDataEncryption
    rw [List.foldl_cons, List.foldl_nil]
    have htake : ("123456789" :: rest).take 10 = "123456789" :: rest.take 9 := rfl
    have hscan : scanColumnRows "ssn" ("123456789" :: rest.take 9) = true := by
      show (if isPlaintext "ssn" "123456789" then true
            else scanColumnRows "ssn" (rest.take 9)) = true
      rw [if_pos (by decide)]
    rw [htake, hscan]
    rw [if_pos rfl]
    rfl

end DataPolicy
